import Mathlib

/-!
Verification of the VCF analyzer's data pipeline (file `asthe.py.py`).

The pipeline is embedded shallowly:

* `RawVariant` abstracts one variant as yielded by the VCF reader (the
  cyvcf2 iterator), restricted to the fields `parse_vcf` actually reads.
* `processVariant` is the body of the `for variant in vcf` loop of
  `parse_vcf`: it builds one table row, and can fail the way the Python
  body raises under cyvcf2's API: `variant.genotypes[0]` is a plain list
  `[allele, allele, phased]`, so the string subscript `sample['AD']`
  raises `TypeError` whenever `'AD' in variant.FORMAT`; and the f-string
  `{variant.ALT[0]}` raises `IndexError` on an empty ALT list.  The
  membership test `'AF' in variant.INFO` compares the string against the
  `(key, value)` pairs that INFO yields when iterated and never matches,
  so the conditional expression always takes its `else 0` arm without
  evaluating `INFO.get('AF', [0])[0]`.
* `parse_vcf` models the whole function including its `try/except`:
  the result is the returned DataFrame (a list of rows) together with the
  error message displayed by `st.error` (`none` when no exception).
* `calculate_mutation_frequencies`, `ngs_quality_metrics` and
  `mutation_spectrum` are the three analysis functions, operating on the
  table.

Python floats are modelled as `Rat`; a pandas missing value (`NaN` /
`None`) is modelled as `none` of an `Option`.  Machine ints are modelled
as `Int`.
-/

/-- One variant as yielded by the VCF reader, abstracted to the fields the
parser touches.  `ad` is `some (ref_count, alt_count)` when the FORMAT
field `AD` is present, carrying the first sample's AD counts as they
stand in the file (the program can never read them: the access raises);
`infoAF` is the INFO `AF` entry as a list of floats when `AF` is present
(only passed through into the `AF` column via `INFO.get('AF')`);
`qual` is `none` when QUAL is missing. -/
structure RawVariant where
  chrom : String := ""
  pos : Int := 0
  ref : String := ""
  alt : List String := []
  var_type : String := ""
  infoAF : Option (List Rat) := none
  ad : Option (Int × Int) := none
  qual : Option Rat := none
  deriving Repr, DecidableEq

/-- One row of the DataFrame built by `parse_vcf`.  `alt` is the
comma-joined ALT string; `dp` and `vaf` are `some` for every row the
parser builds, but are `Option`s because the analysis functions accept any
DataFrame, in which these columns may hold `NaN`. -/
structure VariantRecord where
  chrom : String := ""
  pos : Int := 0
  ref : String := ""
  alt : String := ""
  var_type : String := ""
  af : Option (List Rat) := none
  vaf : Option Rat := none
  dp : Option Rat := none
  mutation : String := ""
  qual : Option Rat := none
  deriving Repr, DecidableEq

/-- Building the row dictionary appended by `parse_vcf`: fails with a
Python `IndexError` when `variant.ALT` is empty (the f-string
`{variant.ALT[0]}` indexes it). -/
def mkRecord (v : RawVariant) (vaf : Rat) (totalDepth : Int) :
    Except String VariantRecord :=
  match v.alt with
  | [] => Except.error "list index out of range"
  | a0 :: _ =>
    Except.ok
      { chrom := v.chrom
        pos := v.pos
        ref := v.ref
        alt := String.intercalate "," v.alt
        var_type := v.var_type
        af := v.infoAF
        vaf := some vaf
        dp := some (totalDepth : Rat)
        mutation := v.ref ++ "→" ++ a0
        qual := v.qual }

/-- Body of the `for variant in vcf` loop of `parse_vcf`, under cyvcf2's
actual API.  When `'AD' in variant.FORMAT`, the line
`ref_count, alt_count = sample['AD'][0], sample['AD'][1]` string-subscripts
`sample = variant.genotypes[0]`, which is a plain list
`[allele, allele, phased]`: it raises `TypeError` before any VAF is
computed.  Otherwise `vaf = ... if 'AF' in variant.INFO else 0`: the
membership test compares the string `'AF'` against the `(key, value)`
pairs INFO yields when iterated, never matches, and the expression
evaluates to 0 (the `INFO.get('AF', [0])[0]` arm is never run), with
`total_depth` staying 0. -/
def processVariant (v : RawVariant) : Except String VariantRecord :=
  match v.ad with
  | some _ => Except.error "list indices must be integers or slices, not str"
  | none => mkRecord v 0 0

/-- The loop of `parse_vcf`: rows are appended in iteration order; the
first raised exception aborts the whole loop. -/
def processAll : List RawVariant → Except String (List VariantRecord)
  | [] => Except.ok []
  | v :: vs =>
    match processVariant v with
    | Except.error e => Except.error e
    | Except.ok r =>
      match processAll vs with
      | Except.error e => Except.error e
      | Except.ok rs => Except.ok (r :: rs)

/-- `parse_vcf` with its `try/except`.  The input is either the variant
stream or a failure of opening/iterating the file.  The result is the
returned DataFrame together with the message shown by `st.error`
(`none` when no exception was raised): on any exception the function
returns an empty DataFrame and shows `VCF parsing error: <message>`. -/
def parse_vcf (input : Except String (List RawVariant)) :
    List VariantRecord × Option String :=
  match input with
  | Except.error e => ([], some ("VCF parsing error: " ++ e))
  | Except.ok vs =>
    match processAll vs with
    | Except.error e => ([], some ("VCF parsing error: " ++ e))
    | Except.ok recs => (recs, none)

/-- Insertion step of a structural insertion sort (models the sorting
done by `DataFrame.sort_values`). -/
def insertByLe {α : Type} (le : α → α → Bool) (x : α) : List α → List α
  | [] => [x]
  | y :: ys => if le x y then x :: y :: ys else y :: insertByLe le x ys

/-- Structural insertion sort by a boolean comparison (models
`DataFrame.sort_values`). -/
def sortByLe {α : Type} (le : α → α → Bool) : List α → List α
  | [] => []
  | x :: xs => insertByLe le x (sortByLe le xs)

/-- One row of the frequency table returned by
`calculate_mutation_frequencies`: the mutation label (index), its
`Count`, and its `Frequency (%)`. -/
structure FreqEntry where
  mutation : String := ""
  count : Nat := 0
  freqPct : Rat := 0
  deriving Repr, DecidableEq

/-- `Counter(df['Mutation'])` as an association list: one entry per
distinct mutation label with its number of occurrences. -/
def mutationCounts (df : List VariantRecord) : List (String × Nat) :=
  (df.map (fun r => r.mutation)).dedup.map
    (fun k => (k, (df.map (fun r => r.mutation)).count k))

/-- `total_mutations = sum(mutation_counts.values())`. -/
def totalMutations (df : List VariantRecord) : Nat :=
  ((mutationCounts df).map (fun p => p.2)).sum

/-- `calculate_mutation_frequencies`: empty table in, empty table out;
otherwise one entry per distinct mutation label with
`Frequency (%) = (Count / total_mutations) * 100`, sorted descending by
`Count`. -/
def calculate_mutation_frequencies (df : List VariantRecord) :
    List FreqEntry :=
  if df.isEmpty then []
  else
    sortByLe (fun a b => Nat.ble b.count a.count)
      ((mutationCounts df).map
        (fun p =>
          { mutation := p.1
            count := p.2
            freqPct := ((p.2 : Rat) / (totalMutations df : Rat)) * 100 }))

/-- The `metrics` dictionary built by `ngs_quality_metrics` when the table
is non-empty.  An `Option` field is `none` when the corresponding numpy
aggregate is the float `NaN` (mean or median of an empty selection). -/
structure NgsMetrics where
  meanDepth : Option Rat := none
  medianVAF : Option Rat := none
  q30 : Nat := 0
  deriving Repr, DecidableEq

/-- `np.mean` of a column after `dropna`; `none` models the `NaN` that
numpy produces for an empty input. -/
def npMean (l : List Rat) : Option Rat :=
  if l.isEmpty then none else some (l.sum / (l.length : Rat))

/-- `np.median`: sort ascending, take the middle element, or the average
of the two middle elements for even length; `none` models `NaN` on empty
input. -/
def npMedian (l : List Rat) : Option Rat :=
  let s := sortByLe (fun a b => decide (a ≤ b)) l
  let n := s.length
  if n = 0 then none
  else if n % 2 = 1 then some (s.getD (n / 2) 0)
  else some ((s.getD (n / 2 - 1) 0 + s.getD (n / 2) 0) / 2)

/-- `ngs_quality_metrics`: an empty dictionary (`none`) for an empty
table, otherwise the mean of `DP` after `dropna`, the median of `VAF`
after `dropna` times 100, and the number of rows with `QUAL >= 30`
(a missing `QUAL` compares false, as `NaN >= 30` does in pandas). -/
def ngs_quality_metrics (df : List VariantRecord) : Option NgsMetrics :=
  if df.isEmpty then none
  else
    some
      { meanDepth := npMean (df.filterMap (fun r => r.dp))
        medianVAF :=
          (npMedian (df.filterMap (fun r => r.vaf))).map (fun m => m * 100)
        q30 :=
          (df.filter
            (fun r =>
              match r.qual with
              | some q => decide (30 ≤ q)
              | none => false)).length }

/-- The `transitions` pair table of `mutation_spectrum`. -/
def transitionPairs : List (String × String) :=
  [("A", "G"), ("G", "A"), ("C", "T"), ("T", "C")]

/-- The `transversions` pair table of `mutation_spectrum`. -/
def transversionPairs : List (String × String) :=
  [("A", "C"), ("A", "T"), ("C", "A"), ("C", "G"),
   ("G", "C"), ("G", "T"), ("T", "A"), ("T", "G")]

/-- The result dictionary of `mutation_spectrum`; `titv` is the
`Ti/Tv Ratio` entry, with `none` modelling the string sentinel `NA`. -/
structure SpectrumSummary where
  transitions : Nat := 0
  transversions : Nat := 0
  titv : Option Rat := none
  deriving Repr, DecidableEq

/-- The prefix of a character list up to (excluding) the first comma:
`s.split(',')[0]` of Python on the underlying characters. -/
def firstAltAux : List Char → List Char
  | [] => []
  | c :: cs => if c = ',' then [] else c :: firstAltAux cs

/-- `s.split(',')[0]` of Python: the prefix of `s` before the first
comma (all of `s` when it has no comma; `""` when `s` is empty). -/
def firstAlt (s : String) : String :=
  String.mk (firstAltAux s.data)

/-- `(row['REF'], row['ALT'].split(',')[0])`. -/
def substPair (r : VariantRecord) : String × String :=
  (r.ref, firstAlt r.alt)

/-- Loop body of `mutation_spectrum`: bump the transition counter when
the substitution pair is in the transition table, else the transversion
counter when it is in the transversion table, else neither. -/
def spectrumStep (acc : Nat × Nat) (r : VariantRecord) : Nat × Nat :=
  if transitionPairs.contains (substPair r) then (acc.1 + 1, acc.2)
  else if transversionPairs.contains (substPair r) then (acc.1, acc.2 + 1)
  else acc

/-- `round(x, 2)` of Python on an exact rational: round `100 * x` to the
nearest integer, ties to even, and divide by 100. -/
def pyRound2 (q : Rat) : Rat :=
  let x := q * 100
  let f : Int := x.floor
  let r := x - (f : Rat)
  let n : Int :=
    if r < 1 / 2 then f
    else if 1 / 2 < r then f + 1
    else if f % 2 = 0 then f else f + 1
  (n : Rat) / 100

/-- The `(ti, tv)` pair after the loop of `mutation_spectrum` over the
rows with `TYPE == 'snp'`. -/
def spectrumCounts (df : List VariantRecord) : Nat × Nat :=
  (df.filter (fun r => r.var_type == "snp")).foldl spectrumStep (0, 0)

/-- `mutation_spectrum`: when the table is empty or contains no row of
type `snp`, zero counts and the `NA` sentinel; otherwise count
transitions and transversions over the `snp` rows and return
`round(ti/tv, 2)` when `tv > 0`, else `NA`. -/
def mutation_spectrum (df : List VariantRecord) : SpectrumSummary :=
  if df.isEmpty || !(df.any (fun r => r.var_type == "snp")) then
    { transitions := 0, transversions := 0, titv := none }
  else
    { transitions := (spectrumCounts df).1
      transversions := (spectrumCounts df).2
      titv :=
        if 0 < (spectrumCounts df).2 then
          some (pyRound2
            (((spectrumCounts df).1 : Rat) / ((spectrumCounts df).2 : Rat)))
        else none }

/-! ### Helper lemmas -/

lemma mkRecord_ok_vaf {v : RawVariant} {q : Rat} {t : Int}
    {rec : VariantRecord} (h : mkRecord v q t = Except.ok rec) :
    rec.vaf = some q := by
  unfold mkRecord at h
  cases halt : v.alt with
  | nil => rw [halt] at h; exact absurd h (by simp)
  | cons a as =>
    rw [halt] at h
    simp only [Except.ok.injEq] at h
    subst h
    rfl

lemma processAll_ok_length :
    ∀ {vs : List RawVariant} {rs : List VariantRecord},
      processAll vs = Except.ok rs → rs.length = vs.length := by
  intro vs
  induction vs with
  | nil =>
    intro rs h
    simp only [processAll, Except.ok.injEq] at h
    subst h
    rfl
  | cons v vs ih =>
    intro rs h
    unfold processAll at h
    cases hv : processVariant v with
    | error e => rw [hv] at h; exact absurd h (by simp)
    | ok r =>
      rw [hv] at h
      cases hrest : processAll vs with
      | error e => rw [hrest] at h; exact absurd h (by simp)
      | ok rs2 =>
        rw [hrest] at h
        simp only [Except.ok.injEq] at h
        subst h
        simp [ih hrest]

lemma processAll_ok_get :
    ∀ {vs : List RawVariant} {rs : List VariantRecord},
      processAll vs = Except.ok rs →
      ∀ i : Nat,
        (vs[i]?.bind (fun v => (processVariant v).toOption)) = rs[i]? := by
  intro vs
  induction vs with
  | nil =>
    intro rs h i
    simp only [processAll, Except.ok.injEq] at h
    subst h
    simp
  | cons v vs ih =>
    intro rs h i
    unfold processAll at h
    cases hv : processVariant v with
    | error e => rw [hv] at h; exact absurd h (by simp)
    | ok r =>
      rw [hv] at h
      cases hrest : processAll vs with
      | error e => rw [hrest] at h; exact absurd h (by simp)
      | ok rs2 =>
        rw [hrest] at h
        simp only [Except.ok.injEq] at h
        subst h
        cases i with
        | zero => simp [hv, Except.toOption]
        | succ n => simpa using ih hrest n

lemma processAll_ok_mem :
    ∀ {vs : List RawVariant} {rs : List VariantRecord},
      processAll vs = Except.ok rs →
      ∀ {rec : VariantRecord}, rec ∈ rs →
        ∃ v ∈ vs, processVariant v = Except.ok rec := by
  intro vs
  induction vs with
  | nil =>
    intro rs h rec hmem
    simp only [processAll, Except.ok.injEq] at h
    subst h
    simp at hmem
  | cons v vs ih =>
    intro rs h rec hmem
    unfold processAll at h
    cases hv : processVariant v with
    | error e => rw [hv] at h; exact absurd h (by simp)
    | ok r =>
      rw [hv] at h
      cases hrest : processAll vs with
      | error e => rw [hrest] at h; exact absurd h (by simp)
      | ok rs2 =>
        rw [hrest] at h
        simp only [Except.ok.injEq] at h
        subst h
        rcases List.mem_cons.mp hmem with hr | hr
        · exact ⟨v, List.mem_cons_self v vs, by rw [hv, hr]⟩
        · rcases ih hrest hr with ⟨w, hw, hpw⟩
          exact ⟨w, List.mem_cons_of_mem v hw, hpw⟩

lemma parse_vcf_ok_inv {vs : List RawVariant}
    {recs : List VariantRecord}
    (h : parse_vcf (Except.ok vs) = (recs, none)) :
    processAll vs = Except.ok recs := by
  simp only [parse_vcf] at h
  cases hp : processAll vs with
  | error e =>
    rw [hp] at h
    simp at h
  | ok rs =>
    rw [hp] at h
    simp only [Prod.mk.injEq] at h
    exact congrArg Except.ok h.1

lemma processVariant_ok_ad_none {v : RawVariant} {rec : VariantRecord}
    (h : processVariant v = Except.ok rec) : v.ad = none := by
  unfold processVariant at h
  cases had : v.ad with
  | some ra => rw [had] at h; exact absurd h (by simp)
  | none => rfl

lemma processVariant_ok_vaf_zero {v : RawVariant} {rec : VariantRecord}
    (h : processVariant v = Except.ok rec) : rec.vaf = some 0 := by
  unfold processVariant at h
  cases had : v.ad with
  | some ra => rw [had] at h; exact absurd h (by simp)
  | none => rw [had] at h; exact mkRecord_ok_vaf h

lemma processAll_ok_all :
    ∀ {vs : List RawVariant} {rs : List VariantRecord},
      processAll vs = Except.ok rs →
      ∀ v ∈ vs, ∃ r, processVariant v = Except.ok r := by
  intro vs
  induction vs with
  | nil =>
    intro rs h v hv
    simp at hv
  | cons w ws ih =>
    intro rs h v hv
    unfold processAll at h
    cases hw : processVariant w with
    | error e => rw [hw] at h; exact absurd h (by simp)
    | ok r =>
      rw [hw] at h
      cases hrest : processAll ws with
      | error e => rw [hrest] at h; exact absurd h (by simp)
      | ok rs2 =>
        rcases List.mem_cons.mp hv with h1 | h1
        · exact ⟨r, h1 ▸ hw⟩
        · exact ih hrest v h1

/-! ### Claim theorems -/

/-- C1 (code bug evidence): in cyvcf2, `variant.genotypes[0]` is a plain
list, so the string subscript `sample['AD']` raises `TypeError` for every
variant whose FORMAT contains AD; the whole-file `except` then discards
everything.  A file containing any AD-bearing variant yields an empty
table and a surfaced error message, so `parse_vcf` can never produce a
record whose VAF is computed from allele-depth counts, contrary to the
claim. -/
theorem parse_vcf_ad_always_fails (vs : List RawVariant)
    (hv : ∃ v ∈ vs, v.ad ≠ none) :
    (parse_vcf (Except.ok vs)).1 = [] ∧
    ∃ e, (parse_vcf (Except.ok vs)).2 = some e := by
  cases hp : processAll vs with
  | error e => simp [parse_vcf, hp]
  | ok rs =>
    obtain ⟨v, hvmem, hvad⟩ := hv
    obtain ⟨r, hr⟩ := processAll_ok_all hp v hvmem
    exact absurd (processVariant_ok_ad_none hr) hvad

/-- Concrete failing input for C1: a variant whose FORMAT carries AD
with `ref_count = 2`, `alt_count = 3` in the file. -/
def vC1 : RawVariant :=
  { ref := "A", alt := ["G"], var_type := "snp", ad := some (2, 3) }

/-- C1 witness: on the concrete AD-bearing variant `vC1` the parse
returns the empty table plus a surfaced message — no record with an
AD-derived VAF of `3 / 5` ever exists. -/
theorem parse_vcf_ad_always_fails_witness :
    (parse_vcf (Except.ok [vC1])).1 = [] ∧
    ∃ e, (parse_vcf (Except.ok [vC1])).2 = some e :=
  parse_vcf_ad_always_fails [vC1] ⟨vC1, by simp, by simp [vC1]⟩

/-- C2: the `try/except` of `parse_vcf` is whole-file: a failure to open
or iterate the file, or an exception raised while building any row, makes
`parse_vcf` return an empty table together with the surfaced message
(never a partial table); and when no failure occurs, every variant yields
exactly one row (none skipped). -/
theorem parse_vcf_whole_file_error :
    (∀ e : String,
      parse_vcf (Except.error e) =
        ([], some ("VCF parsing error: " ++ e))) ∧
    (∀ (vs : List RawVariant) (e : String),
      processAll vs = Except.error e →
      parse_vcf (Except.ok vs) =
        ([], some ("VCF parsing error: " ++ e))) ∧
    (∀ (vs : List RawVariant) (recs : List VariantRecord),
      processAll vs = Except.ok recs →
      parse_vcf (Except.ok vs) = (recs, none) ∧
        recs.length = vs.length) := by
  refine ⟨fun e => rfl, fun vs e h => ?_,
    fun vs recs h => ⟨?_, processAll_ok_length h⟩⟩
  · simp [parse_vcf, h]
  · simp [parse_vcf, h]

/-- A variant that parses fine (used before the failing one in the C2
witness). -/
def vGoodC2 : RawVariant := { ref := "C", alt := ["T"], var_type := "snp" }

/-- A variant whose row construction raises (empty ALT list). -/
def vBadC2 : RawVariant := { ref := "G", alt := [] }

/-- C2 witness: a file whose first variant parses fine and whose second
raises yields the empty table plus the surfaced message, not a
one-row partial table. -/
theorem parse_vcf_whole_file_error_witness :
    parse_vcf (Except.ok [vGoodC2, vBadC2]) =
      ([], some ("VCF parsing error: " ++ "list index out of range")) :=
  parse_vcf_whole_file_error.2.1 [vGoodC2, vBadC2]
    "list index out of range" rfl

/-- C9: when `parse_vcf` succeeds, it produces exactly one row per
variant of the file, and row `i` of the table is the row built from
variant `i`: file order, no re-sorting. -/
theorem parse_vcf_file_order (vs : List RawVariant)
    (recs : List VariantRecord)
    (hok : parse_vcf (Except.ok vs) = (recs, none)) :
    recs.length = vs.length ∧
    ∀ i : Nat,
      (vs[i]?.bind (fun v => (processVariant v).toOption)) = recs[i]? := by
  have h := parse_vcf_ok_inv hok
  exact ⟨processAll_ok_length h, processAll_ok_get h⟩

/-- First concrete variant for the C9 witness. -/
def vC9a : RawVariant := { ref := "A", alt := ["G"], var_type := "snp" }

/-- Second concrete variant for the C9 witness. -/
def vC9b : RawVariant := { ref := "C", alt := ["T"], var_type := "snp" }

/-- Row built from `vC9a`. -/
def recC9a : VariantRecord :=
  { ref := "A", alt := "G", var_type := "snp", vaf := some 0,
    dp := some 0, mutation := "A→G" }

/-- Row built from `vC9b`. -/
def recC9b : VariantRecord :=
  { ref := "C", alt := "T", var_type := "snp", vaf := some 0,
    dp := some 0, mutation := "C→T" }

/-- C9 witness: a concrete two-variant file yields exactly two rows, in
file order. -/
theorem parse_vcf_file_order_witness :
    ([recC9a, recC9b] : List VariantRecord).length =
      ([vC9a, vC9b] : List RawVariant).length ∧
    (processVariant vC9a).toOption = some recC9a ∧
    (processVariant vC9b).toOption = some recC9b := by
  have hok : parse_vcf (Except.ok [vC9a, vC9b]) = ([recC9a, recC9b], none) := by
    simp [parse_vcf, processAll, processVariant, mkRecord, vC9a, vC9b,
      recC9a, recC9b]
    exact ⟨rfl, rfl⟩
  have h := parse_vcf_file_order [vC9a, vC9b] [recC9a, recC9b] hok
  refine ⟨h.1, ?_, ?_⟩
  · simpa using h.2 0
  · simpa using h.2 1

/-- Concrete input for the C3 witness: no AD field, and the file reports
an INFO AF value of 2 — which the program never reads for the VAF
(`'AF' in variant.INFO` never matches), only passes through into the
`AF` column. -/
def vC3 : RawVariant :=
  { ref := "A", alt := ["G"], var_type := "snp", infoAF := some [2] }

/-- The row `parse_vcf` builds from `vC3`: VAF 0, AF column passed
through. -/
def recC3 : VariantRecord :=
  { ref := "A", alt := "G", var_type := "snp", af := some [2],
    vaf := some 0, dp := some 0, mutation := "A→G" }

/-- C3 (code bug evidence): whenever `parse_vcf` succeeds, no input
variant carried AD at all (the `sample['AD']` access raises and empties
the table), and every produced record has VAF = 0 — `'AF' in
variant.INFO` never matches a key, so the fallback arm always yields 0.
The claim's `[0, 1]` bound therefore holds, but only trivially; its
exactness case (AD counts present with total depth `D > 0`) can never
produce a record, contrary to the spec's intent. -/
theorem parse_vcf_vaf_zero (vs : List RawVariant)
    (recs : List VariantRecord) (rec : VariantRecord)
    (hok : parse_vcf (Except.ok vs) = (recs, none)) (hmem : rec ∈ recs) :
    (∃ q, rec.vaf = some q ∧ 0 ≤ q ∧ q ≤ 1) ∧
    rec.vaf = some 0 ∧
    ∀ v ∈ vs, v.ad = none := by
  have hp := parse_vcf_ok_inv hok
  obtain ⟨v, hv, hpv⟩ := processAll_ok_mem hp hmem
  refine ⟨⟨0, processVariant_ok_vaf_zero hpv, le_refl 0, by norm_num⟩,
    processVariant_ok_vaf_zero hpv, ?_⟩
  intro w hw
  obtain ⟨r, hr⟩ := processAll_ok_all hp w hw
  exact processVariant_ok_ad_none hr

/-- C3 witness: the concrete variant `vC3` (AF reported as 2 in the
file) yields a record whose VAF is 0 — inside `[0, 1]`, and not the
reported AF — and its input list carries no AD. -/
theorem parse_vcf_vaf_zero_witness :
    (∃ q, recC3.vaf = some q ∧ 0 ≤ q ∧ q ≤ 1) ∧
    recC3.vaf = some 0 ∧
    ∀ v ∈ [vC3], v.ad = none := by
  have hpv : processVariant vC3 = Except.ok recC3 := by
    simp [processVariant, mkRecord, vC3, recC3]
    rfl
  have hok : parse_vcf (Except.ok [vC3]) = ([recC3], none) := by
    simp [parse_vcf, processAll, hpv]
  exact parse_vcf_vaf_zero [vC3] [recC3] recC3 hok (by simp)

lemma insertByLe_perm {α : Type} (le : α → α → Bool) (x : α)
    (l : List α) : (insertByLe le x l).Perm (x :: l) := by
  induction l with
  | nil => exact List.Perm.refl _
  | cons y ys ih =>
    unfold insertByLe
    by_cases h : le x y
    · rw [if_pos h]
    · rw [if_neg h]
      exact (ih.cons y).trans (List.Perm.swap x y ys)

lemma sortByLe_perm {α : Type} (le : α → α → Bool) (l : List α) :
    (sortByLe le l).Perm l := by
  induction l with
  | nil => exact List.Perm.refl _
  | cons x xs ih =>
    exact (insertByLe_perm le x (sortByLe le xs)).trans (ih.cons x)

lemma totalMutations_eq_length (df : List VariantRecord) :
    totalMutations df = df.length := by
  unfold totalMutations mutationCounts
  rw [List.map_map]
  simp only [Function.comp_def]
  rw [List.sum_map_count_dedup_eq_length]
  exact List.length_map df _

lemma calc_freq_eq (df : List VariantRecord) (h : df ≠ []) :
    calculate_mutation_frequencies df =
      sortByLe (fun a b => Nat.ble b.count a.count)
        ((mutationCounts df).map
          (fun p =>
            { mutation := p.1
              count := p.2
              freqPct :=
                ((p.2 : Rat) / (totalMutations df : Rat)) * 100 })) := by
  cases df with
  | nil => exact absurd rfl h
  | cons a l => rfl

lemma list_sum_pct (l : List (String × Nat)) (T : Rat) :
    (l.map (fun p => ((p.2 : Rat) / T) * 100)).sum =
      ((l.map (fun p => ((p.2 : Nat) : Rat))).sum) / T * 100 := by
  induction l with
  | nil => simp
  | cons p ps ih =>
    simp only [List.map_cons, List.sum_cons, ih, add_div, add_mul]

lemma list_sum_natCast (l : List (String × Nat)) :
    (l.map (fun p => ((p.2 : Nat) : Rat))).sum =
      (((l.map (fun p => p.2)).sum : Nat) : Rat) := by
  induction l with
  | nil => simp
  | cons p ps ih => simp [ih]

/-- C4: for a non-empty table, each row of the frequency table has
`Frequency (%) = (Count / total_mutations) * 100`, and the percentages
sum to exactly 100; for an empty table the result is empty. -/
theorem mutation_frequencies_percentages (df : List VariantRecord) :
    (df ≠ [] →
      (∀ e ∈ calculate_mutation_frequencies df,
        e.freqPct =
          ((e.count : Rat) / (totalMutations df : Rat)) * 100) ∧
      ((calculate_mutation_frequencies df).map
        (fun e => e.freqPct)).sum = 100) ∧
    (df = [] → calculate_mutation_frequencies df = []) := by
  constructor
  · intro hne
    have hperm := calc_freq_eq df hne ▸
      sortByLe_perm (fun a b : FreqEntry => Nat.ble b.count a.count)
        ((mutationCounts df).map
          (fun p : String × Nat =>
            ({ mutation := p.1
               count := p.2
               freqPct :=
                 ((p.2 : Rat) / (totalMutations df : Rat)) * 100 } :
              FreqEntry)))
    constructor
    · intro e he
      have he2 := hperm.mem_iff.mp he
      obtain ⟨p, hp, hpe⟩ := List.mem_map.mp he2
      rw [← hpe]
    · have hsum := (hperm.map (fun e => e.freqPct)).sum_eq
      rw [hsum, List.map_map]
      simp only [Function.comp_def]
      rw [list_sum_pct, list_sum_natCast]
      have hT : ((totalMutations df : Nat) : Rat) ≠ 0 := by
        rw [totalMutations_eq_length]
        exact_mod_cast (List.length_pos.mpr hne).ne'
      rw [show ((mutationCounts df).map (fun p => p.2)).sum
            = totalMutations df from rfl]
      rw [div_self hT]
      norm_num
  · intro h
    subst h
    rfl

/-- Concrete table for the C4 witness: two `A→G` rows and one `C→T`
row. -/
def dfC4 : List VariantRecord :=
  [{ mutation := "A→G" }, { mutation := "A→G" }, { mutation := "C→T" }]

/-- C4 witness: on the concrete three-row table the percentage shares
sum to 100. -/
theorem mutation_frequencies_percentages_witness :
    ((calculate_mutation_frequencies dfC4).map
      (fun e => e.freqPct)).sum = 100 :=
  ((mutation_frequencies_percentages dfC4).1 (by simp [dfC4])).2

/-- C10: the `Count` values of the frequency table sum to the number of
rows of the input table; every count is positive (so no label appears
with count 0); the labels are pairwise distinct; and every row's
mutation label occurs among them — each row is counted exactly once. -/
theorem mutation_frequencies_counts_partition (df : List VariantRecord) :
    (((calculate_mutation_frequencies df).map (fun e => e.count)).sum
      = df.length) ∧
    (∀ e ∈ calculate_mutation_frequencies df, 0 < e.count) ∧
    ((calculate_mutation_frequencies df).map
      (fun e => e.mutation)).Nodup ∧
    (∀ r ∈ df,
      r.mutation ∈
        (calculate_mutation_frequencies df).map (fun e => e.mutation)) := by
  by_cases hne : df = []
  · subst hne
    refine ⟨rfl, ?_, ?_, ?_⟩ <;> simp [calculate_mutation_frequencies]
  · have hperm := calc_freq_eq df hne ▸
      sortByLe_perm (fun a b : FreqEntry => Nat.ble b.count a.count)
        ((mutationCounts df).map
          (fun p : String × Nat =>
            ({ mutation := p.1
               count := p.2
               freqPct :=
                 ((p.2 : Rat) / (totalMutations df : Rat)) * 100 } :
              FreqEntry)))
    refine ⟨?_, ?_, ?_, ?_⟩
    · rw [(hperm.map (fun e => e.count)).sum_eq, List.map_map]
      simp only [Function.comp_def]
      rw [show ((mutationCounts df).map (fun p => p.2)).sum
            = totalMutations df from rfl]
      exact totalMutations_eq_length df
    · intro e he
      obtain ⟨p, hp, hpe⟩ := List.mem_map.mp (hperm.mem_iff.mp he)
      obtain ⟨k, hk, hkp⟩ := List.mem_map.mp hp
      rw [← hpe]
      show 0 < p.2
      rw [← hkp]
      exact List.count_pos_iff.mpr (List.mem_dedup.mp hk)
    · rw [(hperm.map (fun e => e.mutation)).nodup_iff]
      simp only [List.map_map, Function.comp_def, mutationCounts]
      simpa using List.nodup_dedup (df.map (fun r => r.mutation))
    · intro r hr
      rw [(hperm.map (fun e => e.mutation)).mem_iff, List.map_map]
      refine List.mem_map.mpr ?_
      refine ⟨(r.mutation,
        (df.map (fun x => x.mutation)).count r.mutation), ?_, rfl⟩
      unfold mutationCounts
      exact List.mem_map.mpr
        ⟨r.mutation,
         List.mem_dedup.mpr (List.mem_map.mpr ⟨r, hr, rfl⟩), rfl⟩

/-- Concrete table for the C10 witness. -/
def dfC10 : List VariantRecord :=
  [{ mutation := "A→G" }, { mutation := "C→T" }, { mutation := "A→G" }]

/-- C10 witness: on the concrete three-row table the counts sum to the
row count, and a concrete row's label appears in the mapping. -/
theorem mutation_frequencies_counts_partition_witness :
    (((calculate_mutation_frequencies dfC10).map (fun e => e.count)).sum
      = dfC10.length) ∧
    ({ mutation := "C→T" } : VariantRecord).mutation ∈
      (calculate_mutation_frequencies dfC10).map (fun e => e.mutation) := by
  have h := mutation_frequencies_counts_partition dfC10
  exact ⟨h.1, h.2.2.2 { mutation := "C→T" } (by simp [dfC10])⟩

lemma q30_filter_eq (df : List VariantRecord) :
    (df.filter
      (fun r =>
        match r.qual with
        | some q => decide (30 ≤ q)
        | none => false)).length =
    ((df.filterMap (fun r => r.qual)).filter
      (fun q => decide (30 ≤ q))).length := by
  induction df with
  | nil => rfl
  | cons r rs ih =>
    cases hq : r.qual with
    | none => simp [List.filter_cons, List.filterMap_cons, hq, ih]
    | some q =>
      by_cases h30 : (30 : Rat) ≤ q
      · simp [List.filter_cons, List.filterMap_cons, hq, h30, ih]
      · simp [List.filter_cons, List.filterMap_cons, hq, h30, ih]

/-- C5: for a non-empty table, the `Mean Depth` metric is the mean of the
`DP` column taken only over rows whose depth is defined (the column is
passed through `dropna` first), not over all rows with missing treated
as 0. -/
theorem ngs_mean_depth_defined_only (df : List VariantRecord)
    (h : df ≠ []) :
    ∃ m, ngs_quality_metrics df = some m ∧
      (df.filterMap (fun r => r.dp) ≠ [] →
        m.meanDepth =
          some ((df.filterMap (fun r => r.dp)).sum /
            ((df.filterMap (fun r => r.dp)).length : Rat))) := by
  cases df with
  | nil => exact absurd rfl h
  | cons a l =>
    refine ⟨_, rfl, ?_⟩
    intro hd
    show npMean ((a :: l).filterMap (fun r => r.dp)) = _
    rw [npMean, if_neg (by simpa [List.isEmpty_iff] using hd)]

/-- Concrete table for the C5 witness: depths `[10, 20, missing, 30]`. -/
def dfC5 : List VariantRecord :=
  [{ dp := some 10 }, { dp := some 20 }, { dp := none },
   { dp := some 30 }]

/-- C5 witness: on depths `[10, 20, missing, 30]` the mean depth is 20
(the missing value is excluded, not counted as 0). -/
theorem ngs_mean_depth_defined_only_witness :
    ∃ m, ngs_quality_metrics dfC5 = some m ∧
      m.meanDepth = some (20 : Rat) := by
  obtain ⟨m, hm, hmean⟩ :=
    ngs_mean_depth_defined_only dfC5 (by simp [dfC5])
  refine ⟨m, hm, ?_⟩
  rw [hmean (by simp [dfC5])]
  norm_num [dfC5, List.filterMap_cons]

/-- C6: for a non-empty table, the `Q30 Variants` metric counts exactly
the rows whose quality score is defined and at least 30; rows with
missing quality compare false (as `NaN >= 30` does) and are not
counted. -/
theorem ngs_q30_count (df : List VariantRecord) (h : df ≠ []) :
    ∃ m, ngs_quality_metrics df = some m ∧
      m.q30 = ((df.filterMap (fun r => r.qual)).filter
        (fun q => decide (30 ≤ q))).length := by
  cases df with
  | nil => exact absurd rfl h
  | cons a l =>
    exact ⟨_, rfl, q30_filter_eq (a :: l)⟩

/-- Concrete table for the C6 witness: qualities
`[35, 29, missing, 30]`. -/
def dfC6 : List VariantRecord :=
  [{ qual := some 35 }, { qual := some 29 }, { qual := none },
   { qual := some 30 }]

/-- C6 witness: on qualities `[35, 29, missing, 30]` exactly the rows
with quality 35 and 30 are counted. -/
theorem ngs_q30_count_witness :
    ∃ m, ngs_quality_metrics dfC6 = some m ∧ m.q30 = 2 := by
  obtain ⟨m, hm, hq⟩ := ngs_q30_count dfC6 (by simp [dfC6])
  refine ⟨m, hm, ?_⟩
  rw [hq]
  norm_num [dfC6, List.filterMap_cons, List.filter_cons]

/-- C7: the `Ti/Tv Ratio` entry of `mutation_spectrum` is the `NA`
sentinel exactly when the transversion count is 0 — regardless of the
transition count, covering both the no-SNP early return and a loop that
found transitions but no transversions — and otherwise equals
`round(transitions / transversions, 2)`. -/
theorem spectrum_titv_na_iff (df : List VariantRecord) :
    ((mutation_spectrum df).titv =
      (if (mutation_spectrum df).transversions = 0 then none
       else
         some (pyRound2
           (((mutation_spectrum df).transitions : Rat) /
            ((mutation_spectrum df).transversions : Rat))))) ∧
    ((df.isEmpty || !(df.any (fun r => r.var_type == "snp"))) = true →
      mutation_spectrum df =
        { transitions := 0, transversions := 0, titv := none }) := by
  constructor
  · unfold mutation_spectrum
    split
    · simp
    · by_cases h2 : (spectrumCounts df).2 = 0
      · simp [h2]
      · simp [h2, Nat.pos_of_ne_zero h2]
  · intro h
    unfold mutation_spectrum
    rw [if_pos h]

/-- C7 witness: the empty table hits the early return with zero counts
and the `NA` sentinel. -/
theorem spectrum_titv_na_iff_witness :
    mutation_spectrum ([] : List VariantRecord) =
      { transitions := 0, transversions := 0, titv := none } :=
  (spectrum_titv_na_iff []).2 rfl

lemma spectrumStep_skip {r : VariantRecord}
    (ht : transitionPairs.contains (substPair r) = false)
    (hv : transversionPairs.contains (substPair r) = false)
    (acc : Nat × Nat) : spectrumStep acc r = acc := by
  unfold spectrumStep
  rw [ht, hv]
  simp

lemma filter_eq_nil_of_no_snp {df : List VariantRecord}
    (h : (df.isEmpty || !(df.any (fun r => r.var_type == "snp"))) = true) :
    df.filter (fun r => r.var_type == "snp") = [] := by
  rcases Bool.or_eq_true_iff.mp h with h1 | h1
  · rw [List.isEmpty_iff.mp h1]
    rfl
  · rw [Bool.not_eq_true'] at h1
    rw [List.filter_eq_nil_iff]
    intro a ha
    have := List.any_eq_false.mp h1 a ha
    simpa using this

/-- C8: a row of type `snp` whose `(REF, first ALT)` pair is in neither
the transition nor the transversion pair table (e.g. an ambiguity code)
changes nothing in the spectrum result: appending such a row to any
table leaves `mutation_spectrum` unchanged. -/
theorem spectrum_ignores_noncanonical (df : List VariantRecord)
    (r : VariantRecord) (hs : r.var_type = "snp")
    (ht : transitionPairs.contains (substPair r) = false)
    (hv : transversionPairs.contains (substPair r) = false) :
    mutation_spectrum (df ++ [r]) = mutation_spectrum df := by
  have hfilter : List.filter (fun x => x.var_type == "snp") [r] = [r] := by
    simp [hs]
  have hcounts : spectrumCounts (df ++ [r]) = spectrumCounts df := by
    unfold spectrumCounts
    rw [List.filter_append, hfilter, List.foldl_append]
    simp [spectrumStep_skip ht hv]
  have hcond :
      ((df ++ [r]).isEmpty ||
        !((df ++ [r]).any (fun x => x.var_type == "snp"))) = false := by
    simp [hs]
  unfold mutation_spectrum
  rw [hcond]
  by_cases hdf :
      (df.isEmpty || !(df.any (fun x => x.var_type == "snp"))) = true
  · rw [if_pos hdf]
    have hzero : spectrumCounts df = (0, 0) := by
      unfold spectrumCounts
      rw [filter_eq_nil_of_no_snp hdf]
      rfl
    simp only [Bool.false_eq_true, if_false, hcounts, hzero]
    norm_num
  · rw [if_neg hdf]
    simp only [Bool.false_eq_true, if_false, hcounts]

/-- A canonical transition row (A→G) for the C8 witness. -/
def rSnpC8 : VariantRecord :=
  { ref := "A", alt := "G", var_type := "snp", mutation := "A→G" }

/-- A non-canonical snp row (A→N) for the C8 witness. -/
def rOddC8 : VariantRecord :=
  { ref := "A", alt := "N", var_type := "snp", mutation := "A→N" }

/-- C8 witness: appending the concrete non-canonical row `A→N` to a
one-row table leaves the spectrum unchanged. -/
theorem spectrum_ignores_noncanonical_witness :
    mutation_spectrum ([rSnpC8] ++ [rOddC8]) = mutation_spectrum [rSnpC8] :=
  spectrum_ignores_noncanonical [rSnpC8] rOddC8 rfl rfl rfl
